import Mathlib

/-
Verification development for the Dreamlink grid-state engine
(src/src/main.ts).  Geographic coordinates and JS numbers are embedded
as rationals; the sparse cell store (a JS Map from string keys to
memento objects) is embedded as an association list with JS-Map update
semantics (replace in place if the key exists, append otherwise).  The
deterministic draw `luck` is imported from `./_luck.ts`, which is not
part of the sources; per the spec it is a pure function of the cell key
yielding a uniform draw in [0,1), so every definition that needs it
takes the per-cell draw as an explicit function parameter `lucky`.
-/

namespace DreamGrid

-- ---- Constants (main.ts lines 21-30) ----------------------------

def CELL_SIZE_DEG : ℚ := 1 / 10000

def INTERACTION_RADIUS_CELLS : ℚ := 3

def VICTORY_VALUE : ℚ := 32

def WIN_MESSAGE_TIME : ℕ := 2500

def RESET_DELAY : ℕ := 5000

/-- WORLD_ORIGIN from main.ts line 30, the decimal literals read as
exact rationals. -/
def WORLD_ORIGIN : ℚ × ℚ :=
  (36997936938057016 / 1000000000000000, (-12205703507501151) / 100000000000000)

-- ---- Data model --------------------------------------------------

/-- CellMemento (main.ts lines 9-11): the per-cell override record
stored in the `cellMemory` map. -/
structure CellMemento where
  value : ℚ
deriving DecidableEq

/-- The JS value of `gridState.heldSpirit`: `null`, a number, or
`undefined` (the latter only arises when a loaded save lacks the
`heldSpirit` field, since JS property access on a missing key yields
`undefined`). -/
inductive HeldState where
  | null : HeldState
  | undef : HeldState
  | val : ℚ → HeldState
deriving DecidableEq

/-- Which MovementController subclass is installed (main.ts lines
34-124); persisted as the `movementMode` field. -/
inductive MovementMode where
  | geo : MovementMode
  | button : MovementMode
deriving DecidableEq

/-- The engine state the claims quantify over: `playerPos` (main.ts
line 127), `gridState.heldSpirit` (line 150), the `cellMemory` map
(line 152) in insertion order, and the active movement mode (line 153). -/
structure GameState where
  playerPos : ℚ × ℚ
  heldSpirit : HeldState
  cellMemory : List (String × CellMemento)
  movementMode : MovementMode
deriving DecidableEq

-- ---- JS Map on string keys (cellMemory) --------------------------

/-- Map.get composed with Map.has: first (unique) matching key. -/
def mapGet : List (String × CellMemento) → String → Option CellMemento
  | [], _ => none
  | p :: rest, k => if p.1 = k then some p.2 else mapGet rest k

/-- Map.set: replace the value of an existing key in place, otherwise
append a new entry (JS Map insertion-order semantics). -/
def mapSet : List (String × CellMemento) → String → CellMemento → List (String × CellMemento)
  | [], k, v => [(k, v)]
  | p :: rest, k, v => if p.1 = k then (k, v) :: rest else p :: mapSet rest k v

def hasKey (m : List (String × CellMemento)) (k : String) : Bool :=
  (mapGet m k).isSome

-- ---- Coordinate system (main.ts lines 235-292) -------------------

/-- cellKey (main.ts lines 241-243): the template literal i,j. -/
def cellKey (i j : ℤ) : String :=
  toString i ++ "," ++ toString j

/-- centerPlayerOnGrid (main.ts lines 288-292). -/
def centerPlayerOnGrid (lat lng : ℚ) : ℚ × ℚ :=
  (((⌊lat / CELL_SIZE_DEG⌋ : ℚ) + 1 / 2) * CELL_SIZE_DEG,
   ((⌊lng / CELL_SIZE_DEG⌋ : ℚ) + 1 / 2) * CELL_SIZE_DEG)

/-- The position of the center of cell (p, q): what playerPos holds
after any accepted move (always snapped by centerPlayerOnGrid). -/
def cellCenterPos (p q : ℤ) : ℚ × ℚ :=
  (((p : ℚ) + 1 / 2) * CELL_SIZE_DEG, ((q : ℚ) + 1 / 2) * CELL_SIZE_DEG)

/-- isCellNearPlayer (main.ts lines 277-286): independent per-axis
absolute-distance test from the cell's south/west corner to the
player's position. -/
def isCellNearPlayer (pos : ℚ × ℚ) (i j : ℤ) : Prop :=
  |(i : ℚ) * CELL_SIZE_DEG - pos.1| ≤ INTERACTION_RADIUS_CELLS * CELL_SIZE_DEG ∧
  |(j : ℚ) * CELL_SIZE_DEG - pos.2| ≤ INTERACTION_RADIUS_CELLS * CELL_SIZE_DEG

instance (pos : ℚ × ℚ) (i j : ℤ) : Decidable (isCellNearPlayer pos i j) := by
  unfold isCellNearPlayer
  infer_instance

-- ---- Procedural value generator (main.ts lines 264-268) ----------

/-- getSpiritValue body as a function of the draw r = luck(i,j,spirit):
if (r < 0.2) return r < 0.07 ? 4 : r < 0.14 ? 2 : 1; return 0. -/
def getSpiritValueR (r : ℚ) : ℚ :=
  if r < 2 / 10 then (if r < 7 / 100 then 4 else if r < 14 / 100 then 2 else 1) else 0

/-- getSpiritValue (main.ts lines 264-268).  Modelled from the spec:
the draw `luck` lives in `./_luck.ts` which is not among the sources;
the spec describes it as a pure deterministic function of the cell
identity with values drawn uniformly from [0,1), so it is passed in as
the parameter `lucky`. -/
def getSpiritValue (lucky : ℤ → ℤ → ℚ) (i j : ℤ) : ℚ :=
  getSpiritValueR (lucky i j)

/-- getSpiritAt (main.ts lines 270-275): override if present, else the
procedural value. -/
def getSpiritAt (lucky : ℤ → ℤ → ℚ) (s : GameState) (i j : ℤ) : ℚ :=
  match mapGet s.cellMemory (cellKey i j) with
  | some m => m.value
  | none => getSpiritValue lucky i j

-- ---- Gameplay actions (main.ts lines 407-443) --------------------

/-- JS truthiness of the held-spirit value, as used by the guard
`held && currentValue === 0` (main.ts line 487): null and undefined
are falsy, a number is falsy exactly when it is 0. -/
def heldTruthy : HeldState → Bool
  | HeldState.val q => decide (q ≠ 0)
  | _ => false

/-- The TS non-null assertion `gridState.heldSpirit!` in performDrop
(main.ts line 431); only evaluated under the truthiness guard, where
the held state is a number. -/
def heldValue : HeldState → ℚ
  | HeldState.val q => q
  | _ => 0

/-- performPickup (main.ts lines 407-415), restricted to the engine
state (UI refresh and the saveGame call are session-level effects). -/
def performPickup (s : GameState) (i j : ℤ) (value : ℚ) : GameState :=
  { s with heldSpirit := HeldState.val value,
           cellMemory := mapSet s.cellMemory (cellKey i j) ⟨0⟩ }

/-- performMerge (main.ts lines 417-427), engine-state part; the
victory trigger and saveGame are modelled at the session level. -/
def performMerge (s : GameState) (i j : ℤ) (value : ℚ) : GameState :=
  { s with cellMemory := mapSet s.cellMemory (cellKey i j) ⟨value * 2⟩,
           heldSpirit := HeldState.null }

/-- performDrop (main.ts lines 429-443), engine-state part. -/
def performDrop (s : GameState) (i j : ℤ) : GameState :=
  { s with cellMemory := mapSet s.cellMemory (cellKey i j) ⟨heldValue s.heldSpirit⟩,
           heldSpirit := HeldState.null }

/-- The outcome of one activation, per the spec's interaction state
machine naming. -/
inductive Outcome where
  | rejectTooFar : Outcome
  | pickup : Outcome
  | merge : Outcome
  | drop : Outcome
  | rejectEmpty : Outcome
  | rejectMismatch : Outcome
deriving DecidableEq

/-- handleCellClick (main.ts lines 473-493).  The locals currentValue
and held are pure reads and are inlined.  The guards are translated
with JS strict-equality and truthiness semantics: line 481
`currentValue > 0 && held === null`, line 484
`currentValue > 0 && held === currentValue`, line 487
`held && currentValue === 0`, line 489
`held === null && currentValue === 0`, final fallthrough line 492. -/
def handleCellClick (lucky : ℤ → ℤ → ℚ) (s : GameState) (i j : ℤ) : Outcome × GameState :=
  if ¬ isCellNearPlayer s.playerPos i j then (Outcome.rejectTooFar, s)
  else if 0 < getSpiritAt lucky s i j ∧ s.heldSpirit = HeldState.null then
    (Outcome.pickup, performPickup s i j (getSpiritAt lucky s i j))
  else if 0 < getSpiritAt lucky s i j ∧ s.heldSpirit = HeldState.val (getSpiritAt lucky s i j) then
    (Outcome.merge, performMerge s i j (getSpiritAt lucky s i j))
  else if heldTruthy s.heldSpirit = true ∧ getSpiritAt lucky s i j = 0 then
    (Outcome.drop, performDrop s i j)
  else if s.heldSpirit = HeldState.null ∧ getSpiritAt lucky s i j = 0 then
    (Outcome.rejectEmpty, s)
  else (Outcome.rejectMismatch, s)

/-- handleMoveEvent (main.ts lines 301-312), engine-state part: the
accepted position is snapped to a cell center; the redraw, pan and
saveGame are UI/session effects that do not touch the store or the
held spirit. -/
def handleMoveEvent (s : GameState) (lat lng : ℚ) : GameState :=
  { s with playerPos := centerPlayerOnGrid lat lng }

-- ---- Event traces and reachability ------------------------------

/-- One external event: a cell activation (rect click) or a movement
callback. -/
inductive Ev where
  | click : ℤ → ℤ → Ev
  | move : ℚ → ℚ → Ev

def stepEv (lucky : ℤ → ℤ → ℚ) (s : GameState) : Ev → GameState
  | Ev.click i j => (handleCellClick lucky s i j).2
  | Ev.move lat lng => handleMoveEvent s lat lng

def isMutating : Outcome → Bool
  | Outcome.pickup => true
  | Outcome.merge => true
  | Outcome.drop => true
  | _ => false

/-- The store keys written by one event: a click writes exactly the
clicked cell's key when its outcome mutates the store; moves write
nothing. -/
def keysSetBy (lucky : ℤ → ℤ → ℚ) (s : GameState) : Ev → List String
  | Ev.click i j =>
    if isMutating (handleCellClick lucky s i j).1 then [cellKey i j] else []
  | Ev.move _ _ => []

/-- Run a trace of events, collecting the list of store keys ever
targeted by a set. -/
def runTrace (lucky : ℤ → ℤ → ℚ) : GameState → List Ev → GameState × List String
  | s, [] => (s, [])
  | s, e :: rest =>
    let r := runTrace lucky (stepEv lucky s e) rest
    (r.1, keysSetBy lucky s e ++ r.2)

/-- A fresh session: the player snapped to the center of some start
cell (p, q), empty-handed, empty store, button movement (main.ts lines
127, 150-153 plus the snap in lines 134/531). -/
def initState (p q : ℤ) : GameState :=
  { playerPos := cellCenterPos p q,
    heldSpirit := HeldState.null,
    cellMemory := [],
    movementMode := MovementMode.button }

/-- Run a list of movement events only (lat, lng pairs). -/
def runMoves (s : GameState) (moves : List (ℚ × ℚ)) : GameState :=
  moves.foldl (fun t m => handleMoveEvent t m.1 m.2) s

-- ---- Persistence codec (main.ts lines 347-403) -------------------

/-- JSON values; JSON numbers are embedded as rationals. -/
inductive Json where
  | null : Json
  | num : ℚ → Json
  | str : String → Json
  | bool : Bool → Json
  | arr : List Json → Json
  | obj : List (String × Json) → Json

def kPlayer : String := "player"

def kLat : String := "lat"

def kLng : String := "lng"

def kHeldSpirit : String := "heldSpirit"

def kCellMemory : String := "cellMemory"

def kMovementMode : String := "movementMode"

def kValue : String := "value"

def kOverrides : String := "overrides"

def sGeo : String := "geo"

def sButton : String := "button"

/-- The heldSpirit field of the saved object.  JSON.stringify keeps a
null value, serializes a number, and omits a key whose value is
undefined. -/
def encodeHeld : HeldState → List (String × Json)
  | HeldState.null => [(kHeldSpirit, Json.null)]
  | HeldState.val q => [(kHeldSpirit, Json.num q)]
  | HeldState.undef => []

def encodeMode : MovementMode → String
  | MovementMode.geo => sGeo
  | MovementMode.button => sButton

/-- One element of Array.from(cellMemory.entries()): a two-element
array [key, memento] where memento is the object \x7bvalue\x7d. -/
def encodeEntry (p : String × CellMemento) : Json :=
  Json.arr [Json.str p.1, Json.obj [(kValue, Json.num p.2.value)]]

/-- saveGame's record (main.ts lines 350-364): the object literal with
keys player, heldSpirit, cellMemory, movementMode in that order. -/
def serialize (s : GameState) : Json :=
  Json.obj
    ([(kPlayer, Json.obj [(kLat, Json.num s.playerPos.1), (kLng, Json.num s.playerPos.2)])]
      ++ encodeHeld s.heldSpirit
      ++ [(kCellMemory, Json.arr (s.cellMemory.map encodeEntry)),
          (kMovementMode, Json.str (encodeMode s.movementMode))])

def jFind : List (String × Json) → String → Option Json
  | [], _ => none
  | p :: rest, k => if p.1 = k then some p.2 else jFind rest k

/-- JS property access returning undefined (none) when the key is
absent or the value is not an object. -/
def jLookup : Json → String → Option Json
  | Json.obj fs, k => jFind fs k
  | _, _ => none

/-- The evaluation of L.latLng(data.player.lat, data.player.lng)
(main.ts line 375): none models a thrown exception, i.e. data is null
(property access throws), data.player is missing or not an object
(accessing .lat on undefined throws, and L.latLng throws on undefined
or non-numeric coordinates). -/
def readPlayer (data : Json) : Option (ℚ × ℚ) :=
  match data with
  | Json.null => none
  | _ =>
    match jLookup data kPlayer with
    | some p =>
      match jLookup p kLat, jLookup p kLng with
      | some (Json.num a), some (Json.num b) => some (a, b)
      | _, _ => none
    | none => none

/-- The value assigned by `gridState.heldSpirit = data.heldSpirit`
(main.ts line 380): an absent field assigns undefined; null and
numbers are assigned as they are.  A field holding any other JSON
value would be assigned verbatim in JS; such records are outside the
domain of this embedding (none, treated as load failure) and are not
exercised by any theorem below. -/
def decodeHeld : Option Json → Option HeldState
  | none => some HeldState.undef
  | some Json.null => some HeldState.null
  | some (Json.num q) => some (HeldState.val q)
  | some _ => none

/-- Decoding one stored memento object \x7bvalue\x7d.  JS would store
any other shape verbatim (to fail only on later field access); such
records are outside the domain of this embedding and unexercised. -/
def decodeMemento (m : Json) : Option CellMemento :=
  match jLookup m kValue with
  | some (Json.num q) => some ⟨q⟩
  | _ => none

/-- The restore loop `for (const [key, memento] of data.cellMemory)`
(main.ts lines 385-387).  On a non-array entry the destructuring
throws: the Bool is false and the partially filled map built so far is
kept (the mutations already performed are not rolled back). -/
def loadEntries : List Json → List (String × CellMemento) → Bool × List (String × CellMemento)
  | [], m => (true, m)
  | e :: rest, m =>
    match e with
    | Json.arr (Json.str k :: mj :: _) =>
      match decodeMemento mj with
      | some mem => loadEntries rest (mapSet m k mem)
      | none => (false, m)
    | _ => (false, m)

/-- The body of loadGame's try block (main.ts lines 372-398), mutating
the engine state field by field in source order; a false result models
a caught exception, and the state returned with it is whatever had
already been mutated when the exception was raised. -/
def deserializeInto (data : Json) (s : GameState) : Bool × GameState :=
  match readPlayer data with
  | none => (false, s)
  | some pos =>
    let s1 := { s with playerPos := pos }
    match decodeHeld (jLookup data kHeldSpirit) with
    | none => (false, s1)
    | some h =>
      let s2 := { s1 with heldSpirit := h }
      let s3 := { s2 with cellMemory := [] }
      match jLookup data kCellMemory with
      | some (Json.arr entries) =>
        match loadEntries entries s3.cellMemory with
        | (true, mem) =>
          let mode :=
            match jLookup data kMovementMode with
            | some (Json.str ms) => if ms = sGeo then MovementMode.geo else MovementMode.button
            | _ => MovementMode.button
          (true, { s3 with cellMemory := mem, movementMode := mode })
        | (false, mem) => (false, { s3 with cellMemory := mem })
      | _ => (false, s3)

/-- loadGame (main.ts lines 367-403).  The raw slot read: none = no
save under the key; some none = stored text that JSON.parse rejects
(throws before any mutation); some (some data) = the parsed value. -/
def loadGame (raw : Option (Option Json)) (s : GameState) : Bool × GameState :=
  match raw with
  | none => (false, s)
  | some none => (false, s)
  | some (some data) => deserializeInto data s

/-- The module-level state before loadGame runs (main.ts lines 127,
150-153). -/
def freshStart : GameState :=
  { playerPos := WORLD_ORIGIN,
    heldSpirit := HeldState.null,
    cellMemory := [],
    movementMode := MovementMode.button }

/-- The startup sequence (main.ts lines 529-534): run loadGame; if it
returns false, re-snap the player to the origin cell center.  Nothing
else of the partially loaded state is rolled back. -/
def startupState (raw : Option (Option Json)) : GameState :=
  let r := loadGame raw freshStart
  if r.1 then r.2
  else { r.2 with playerPos := centerPlayerOnGrid WORLD_ORIGIN.1 WORLD_ORIGIN.2 }

-- ---- Victory sequence and session state (main.ts lines 447-469) --

inductive TimerAction where
  | changeWinMessage : TimerAction
  | doReset : TimerAction

/-- Session-level state around the engine state: the win overlay, the
map-dragging flag (the only input triggerVictory freezes), the
persisted save slot, and the pending setTimeout callbacks as
(delay, action) pairs. -/
structure SessionState where
  gs : GameState
  overlayVisible : Bool
  overlayText : String
  mapDraggingEnabled : Bool
  saveSlot : Option Json
  timers : List (ℕ × TimerAction)

def WIN_TEXT1 : String := "You Restored the Dream!"

def WIN_TEXT2 : String := "A new dream begins..."

/-- triggerVictory (main.ts lines 447-459): show the overlay, disable
map dragging, schedule the message change after WIN_MESSAGE_TIME and
resetGame after RESET_DELAY.  Nothing stops the movement controller
and nothing disables handleCellClick. -/
def triggerVictory (t : SessionState) : SessionState :=
  { t with overlayText := WIN_TEXT1,
           overlayVisible := true,
           mapDraggingEnabled := false,
           timers := t.timers ++ [(WIN_MESSAGE_TIME, TimerAction.changeWinMessage),
                                  (RESET_DELAY, TimerAction.doReset)] }

/-- resetGame (main.ts lines 461-469): clear heldSpirit, hide the
overlay, re-enable dragging, clear the store, redraw.  It does not
touch the save slot and does not move the player. -/
def resetGame (t : SessionState) : SessionState :=
  { t with gs := { t.gs with heldSpirit := HeldState.null, cellMemory := [] },
           overlayVisible := false,
           mapDraggingEnabled := true }

/-- saveGame (main.ts lines 350-364) at session level: overwrite the
slot with the serialized engine state. -/
def saveSession (t : SessionState) : SessionState :=
  { t with saveSlot := some (serialize t.gs) }

/-- performMerge at session level (main.ts lines 417-427): mutate the
engine state, trigger the victory sequence when the doubled value
reaches VICTORY_VALUE, then save. -/
def performMergeSession (t : SessionState) (i j : ℤ) (value : ℚ) : SessionState :=
  let t1 := { t with gs := performMerge t.gs i j value }
  let t2 := if VICTORY_VALUE ≤ value * 2 then triggerVictory t1 else t1
  saveSession t2

-- ---- Spec-side record-shape checker (amended claim C6) -----------

def jKeys : Json → List String
  | Json.obj fs => fs.map (fun p => p.1)
  | _ => []

def isHeldJson : Json → Bool
  | Json.null => true
  | Json.num _ => true
  | _ => false

def isEntryShape : Json → Bool
  | Json.arr [Json.str _, Json.obj [(k, Json.num _)]] => k == kValue
  | _ => false

/-- Follows the amended spec wording for the persisted record shape:
player is an object with numeric lat and lng, heldSpirit is null or a
number, the override entries are an array of [string, \x7bvalue:number\x7d]
pairs stored under the key cellMemory, and movementMode is the string
geo or button. -/
def isSaveShape : Json → Bool
  | Json.obj [(k1, Json.obj [(ka, Json.num _), (kb, Json.num _)]), (k2, h),
              (k3, Json.arr es), (k4, Json.str m)] =>
    k1 == kPlayer && ka == kLat && kb == kLng && k2 == kHeldSpirit && isHeldJson h &&
    k3 == kCellMemory && es.all isEntryShape && k4 == kMovementMode &&
    (m == sGeo || m == sButton)
  | _ => false

-- ---- Concrete instances shared by witnesses and counterexamples --

/-- A draw assignment used for concrete runs: cell (0,0) draws 1/10
(procedural value 2), every other cell draws 1/2 (procedural value 0).
Any assignment of this form is realizable by a uniform [0,1) draw. -/
def lucky0 : ℤ → ℤ → ℚ :=
  fun i j => if i = 0 ∧ j = 0 then 1 / 10 else 1 / 2

/-- Two activations of cell (0,0): a pickup followed by a drop of the
same spirit back into the now-empty cell. -/
def cexEvs : List Ev := [Ev.click 0 0, Ev.click 0 0]

def exMoves : List (ℚ × ℚ) := [(3 / 10000, 3 / 10000), (1 / 20000, 1 / 20000)]

/-- A reachable-looking state used by the serialization witnesses. -/
def exSaveState : GameState :=
  { playerPos := cellCenterPos 2 (-3),
    heldSpirit := HeldState.val 2,
    cellMemory := [(cellKey 0 0, ⟨0⟩), (cellKey 1 2, ⟨4⟩)],
    movementMode := MovementMode.geo }

def exOldSave : String := "old-save"

/-- A session mid-game: a cell holding value 16 next to the player, a
non-empty persisted save, dragging enabled. -/
def exSession : SessionState :=
  { gs := { playerPos := cellCenterPos 0 0,
            heldSpirit := HeldState.null,
            cellMemory := [(cellKey 0 0, ⟨16⟩)],
            movementMode := MovementMode.button },
    overlayVisible := false,
    overlayText := "",
    mapDraggingEnabled := true,
    saveSlot := some (Json.str exOldSave),
    timers := [] }

/-- A persisted record with a well-formed player and a held spirit but
no cellMemory field. -/
def badSave : Json :=
  Json.obj [(kPlayer, Json.obj [(kLat, Json.num 1), (kLng, Json.num 2)]),
            (kHeldSpirit, Json.num 7)]

-- ---- Helper lemmas ----------------------------------------------

theorem mapGet_mapSet (m : List (String × CellMemento)) (k k' : String) (v : CellMemento) :
    mapGet (mapSet m k v) k' = if k' = k then some v else mapGet m k' := by
  induction m with
  | nil =>
    by_cases h : k' = k
    · simp [mapSet, mapGet, h]
    · have hkk : ¬ k = k' := fun hh => h hh.symm
      simp [mapSet, mapGet, h, hkk]
  | cons p rest ih =>
    by_cases hp : p.1 = k
    · by_cases h : k' = k
      · simp [mapSet, mapGet, hp, h]
      · have hpk : ¬ p.1 = k' := fun hh => h (hh.symm.trans hp)
        have hkk : ¬ k = k' := fun hh => h hh.symm
        simp [mapSet, mapGet, hp, h, hpk, hkk]
    · by_cases hq : p.1 = k'
      · have hk : ¬ k' = k := fun hh => hp (hq.trans hh)
        simp [mapSet, mapGet, hp, hq, hk]
      · simp [mapSet, mapGet, hp, hq, ih]

theorem hasKey_mapSet (m : List (String × CellMemento)) (k k' : String) (v : CellMemento) :
    hasKey (mapSet m k v) k' = true ↔ hasKey m k' = true ∨ k' = k := by
  unfold hasKey
  rw [mapGet_mapSet]
  by_cases h : k' = k <;> simp [h]

theorem hasKey_nil (k : String) : hasKey [] k = false := rfl

-- ---- C7: procedural value mapping -------------------------------

/-- C7: getSpiritValue maps the [0,1) draw r to 4 when r is below
0.07, to 2 on [0.07, 0.14), to 1 on [0.14, 0.2) and to 0 at or above
0.2, so the result is always one of 0, 1, 2, 4. -/
theorem spirit_value_mapping (r : ℚ) :
    (r < 7 / 100 → getSpiritValueR r = 4) ∧
    (7 / 100 ≤ r ∧ r < 14 / 100 → getSpiritValueR r = 2) ∧
    (14 / 100 ≤ r ∧ r < 2 / 10 → getSpiritValueR r = 1) ∧
    (2 / 10 ≤ r → getSpiritValueR r = 0) ∧
    (getSpiritValueR r = 0 ∨ getSpiritValueR r = 1 ∨
      getSpiritValueR r = 2 ∨ getSpiritValueR r = 4) := by
  unfold getSpiritValueR
  split_ifs with h1 h2 h3 <;>
    refine ⟨fun ha => ?_, fun hb => ?_, fun hc => ?_, fun hd => ?_, ?_⟩ <;>
    first
      | rfl
      | (exfalso; linarith [hb.1, hb.2])
      | (exfalso; linarith [hc.1, hc.2])
      | (exfalso; linarith)
      | simp

/-- Witness for C7 at the concrete draw r = 1/10. -/
theorem spirit_value_mapping_witness : getSpiritValueR (1 / 10) = 2 :=
  (spirit_value_mapping (1 / 10)).2.1 ⟨by norm_num, by norm_num⟩

-- ---- C8: proximity is a per-axis box test -----------------------

/-- C8: isCellNearPlayer holds exactly when both the absolute latitude
distance and the absolute longitude distance from the player position
to the cell's south/west corner are within RADIUS times the cell size
(3 times 0.0001 degrees), each axis tested independently; it is a box
test, not Euclidean: the diagonal cell (3, 3) seen from (0, 0) is
near although its Euclidean distance exceeds RADIUS times the cell
size. -/
theorem isNear_box_characterization :
    (∀ (pos : ℚ × ℚ) (i j : ℤ),
      isCellNearPlayer pos i j ↔
        (|(i : ℚ) * (1 / 10000) - pos.1| ≤ 3 * (1 / 10000) ∧
         |(j : ℚ) * (1 / 10000) - pos.2| ≤ 3 * (1 / 10000))) ∧
    (isCellNearPlayer (0, 0) 3 3 ∧
      ((3 : ℚ) * (1 / 10000)) ^ 2 + ((3 : ℚ) * (1 / 10000)) ^ 2 >
        (3 * (1 / 10000)) ^ 2) := by
  refine ⟨fun pos i j => ?_, ⟨?_, ?_⟩, by norm_num⟩
  · unfold isCellNearPlayer CELL_SIZE_DEG INTERACTION_RADIUS_CELLS
    exact Iff.rfl
  · show |(3 : ℚ) * CELL_SIZE_DEG - 0| ≤ 3 * CELL_SIZE_DEG
    rw [abs_of_nonneg (by norm_num [CELL_SIZE_DEG])]
    norm_num [CELL_SIZE_DEG]
  · show |(3 : ℚ) * CELL_SIZE_DEG - 0| ≤ 3 * CELL_SIZE_DEG
    rw [abs_of_nonneg (by norm_num [CELL_SIZE_DEG])]
    norm_num [CELL_SIZE_DEG]

-- ---- C10: the 6 by 6 near window around a snapped player ---------

theorem axis_window (p i : ℤ) :
    |(i : ℚ) * CELL_SIZE_DEG - ((p : ℚ) + 1 / 2) * CELL_SIZE_DEG| ≤
        INTERACTION_RADIUS_CELLS * CELL_SIZE_DEG ↔
      (p - 2 ≤ i ∧ i ≤ p + 3) := by
  rw [abs_le]
  unfold CELL_SIZE_DEG INTERACTION_RADIUS_CELLS
  constructor
  · rintro ⟨h1, h2⟩
    constructor
    · have hq : ((p : ℚ) - 3) < (i : ℚ) := by linarith
      have hz : (p - 3 : ℤ) < i := by exact_mod_cast hq
      omega
    · have hq : (i : ℚ) < (p : ℚ) + 4 := by linarith
      have hz : i < (p + 4 : ℤ) := by exact_mod_cast hq
      omega
  · rintro ⟨h1, h2⟩
    have hq1 : ((p : ℚ) - 2) ≤ (i : ℚ) := by exact_mod_cast h1
    have hq2 : (i : ℚ) ≤ ((p : ℚ) + 3) := by exact_mod_cast h2
    constructor <;> linarith

/-- C10: for a player snapped to the center of cell (p, q) the cells
accepted by the proximity test form exactly the asymmetric window with
i - p and j - q each ranging over -2 .. 3, a 6 by 6 block shifted one
cell toward north/east, because the per-axis distance of 3 cells is
measured from the player's cell center to the candidate cell's
south/west corner. -/
theorem near_window_at_cell_center (p q i j : ℤ) :
    isCellNearPlayer (cellCenterPos p q) i j ↔
      ((p - 2 ≤ i ∧ i ≤ p + 3) ∧ (q - 2 ≤ j ∧ j ≤ q + 3)) := by
  unfold isCellNearPlayer cellCenterPos
  exact and_congr (axis_window p i) (axis_window q j)

-- ---- C1: the interaction state machine --------------------------

/-- C1: for every activation of cell (i, j), with the held spirit
either empty or a positive value (the only held states gameplay can
produce): far cells are rejected with no mutation; near cells resolve
v = store.get(i,j) and then v positive with empty hands is PICKUP
(hold v, set the cell to 0), v positive and equal to the held value is
MERGE (set the cell to 2v, empty the hands), v zero with held hands is
DROP (set the cell to the held value, empty the hands), v zero with
empty hands is REJECT_EMPTY with no mutation, and v positive with a
different held value is REJECT_MISMATCH with no mutation. -/
theorem click_state_machine (lucky : ℤ → ℤ → ℚ) (s : GameState) (i j : ℤ)
    (hWF : s.heldSpirit = HeldState.null ∨
           ∃ w, s.heldSpirit = HeldState.val w ∧ 0 < w) :
    (¬ isCellNearPlayer s.playerPos i j →
      handleCellClick lucky s i j = (Outcome.rejectTooFar, s)) ∧
    (isCellNearPlayer s.playerPos i j →
      (0 < getSpiritAt lucky s i j ∧ s.heldSpirit = HeldState.null →
        handleCellClick lucky s i j =
          (Outcome.pickup,
            { s with heldSpirit := HeldState.val (getSpiritAt lucky s i j),
                     cellMemory := mapSet s.cellMemory (cellKey i j) ⟨0⟩ })) ∧
      (0 < getSpiritAt lucky s i j ∧
          s.heldSpirit = HeldState.val (getSpiritAt lucky s i j) →
        handleCellClick lucky s i j =
          (Outcome.merge,
            { s with heldSpirit := HeldState.null,
                     cellMemory := mapSet s.cellMemory (cellKey i j)
                       ⟨getSpiritAt lucky s i j * 2⟩ })) ∧
      (getSpiritAt lucky s i j = 0 ∧ s.heldSpirit ≠ HeldState.null →
        ∃ w, s.heldSpirit = HeldState.val w ∧
          handleCellClick lucky s i j =
            (Outcome.drop,
              { s with heldSpirit := HeldState.null,
                       cellMemory := mapSet s.cellMemory (cellKey i j) ⟨w⟩ })) ∧
      (getSpiritAt lucky s i j = 0 ∧ s.heldSpirit = HeldState.null →
        handleCellClick lucky s i j = (Outcome.rejectEmpty, s)) ∧
      (0 < getSpiritAt lucky s i j ∧ s.heldSpirit ≠ HeldState.null ∧
          s.heldSpirit ≠ HeldState.val (getSpiritAt lucky s i j) →
        handleCellClick lucky s i j = (Outcome.rejectMismatch, s))) := by
  constructor
  · intro hfar
    unfold handleCellClick
    rw [if_pos hfar]
  · intro hnear
    have hnn : ¬ ¬ isCellNearPlayer s.playerPos i j := not_not_intro hnear
    refine ⟨?_, ?_, ?_, ?_, ?_⟩
    · rintro ⟨hv, hnull⟩
      unfold handleCellClick
      rw [if_neg hnn, if_pos ⟨hv, hnull⟩]
      rfl
    · rintro ⟨hv, hval⟩
      have h1 : ¬ (0 < getSpiritAt lucky s i j ∧ s.heldSpirit = HeldState.null) := by
        rintro ⟨_, hnull⟩
        rw [hval] at hnull
        exact HeldState.noConfusion hnull
      unfold handleCellClick
      rw [if_neg hnn, if_neg h1, if_pos ⟨hv, hval⟩]
      rfl
    · rintro ⟨hv0, hnotnull⟩
      rcases hWF with hnull | ⟨w, hw, hwpos⟩
      · exact absurd hnull hnotnull
      refine ⟨w, hw, ?_⟩
      have h1 : ¬ (0 < getSpiritAt lucky s i j ∧ s.heldSpirit = HeldState.null) := by
        rintro ⟨h, _⟩
        rw [hv0] at h
        exact lt_irrefl 0 h
      have h2 : ¬ (0 < getSpiritAt lucky s i j ∧
          s.heldSpirit = HeldState.val (getSpiritAt lucky s i j)) := by
        rintro ⟨h, _⟩
        rw [hv0] at h
        exact lt_irrefl 0 h
      have h3 : heldTruthy s.heldSpirit = true ∧ getSpiritAt lucky s i j = 0 := by
        refine ⟨?_, hv0⟩
        rw [hw]
        simp [heldTruthy]
        exact hwpos.ne'
      unfold handleCellClick
      rw [if_neg hnn, if_neg h1, if_neg h2, if_pos h3]
      unfold performDrop
      rw [hw]
      rfl
    · rintro ⟨hv0, hnull⟩
      have h1 : ¬ (0 < getSpiritAt lucky s i j ∧ s.heldSpirit = HeldState.null) := by
        rintro ⟨h, _⟩
        rw [hv0] at h
        exact lt_irrefl 0 h
      have h2 : ¬ (0 < getSpiritAt lucky s i j ∧
          s.heldSpirit = HeldState.val (getSpiritAt lucky s i j)) := by
        rintro ⟨h, _⟩
        rw [hv0] at h
        exact lt_irrefl 0 h
      have h3 : ¬ (heldTruthy s.heldSpirit = true ∧ getSpiritAt lucky s i j = 0) := by
        rintro ⟨ht, _⟩
        rw [hnull] at ht
        simp [heldTruthy] at ht
      unfold handleCellClick
      rw [if_neg hnn, if_neg h1, if_neg h2, if_neg h3, if_pos ⟨hnull, hv0⟩]
    · rintro ⟨hv, hnotnull, hne⟩
      rcases hWF with hnull | ⟨w, hw, hwpos⟩
      · exact absurd hnull hnotnull
      have h1 : ¬ (0 < getSpiritAt lucky s i j ∧ s.heldSpirit = HeldState.null) := by
        rintro ⟨_, hnull⟩
        exact hnotnull hnull
      have h2 : ¬ (0 < getSpiritAt lucky s i j ∧
          s.heldSpirit = HeldState.val (getSpiritAt lucky s i j)) := by
        rintro ⟨_, hval⟩
        exact hne hval
      have h3 : ¬ (heldTruthy s.heldSpirit = true ∧ getSpiritAt lucky s i j = 0) := by
        rintro ⟨_, hz⟩
        rw [hz] at hv
        exact lt_irrefl 0 hv
      have h4 : ¬ (s.heldSpirit = HeldState.null ∧ getSpiritAt lucky s i j = 0) := by
        rintro ⟨hnull, _⟩
        exact hnotnull hnull
      unfold handleCellClick
      rw [if_neg hnn, if_neg h1, if_neg h2, if_neg h3, if_neg h4]

/-- Witness for C1: in a fresh session at cell (0, 0) with the draw of
lucky0, clicking the origin cell performs a pickup with the claimed
effects. -/
theorem click_state_machine_witness :
    handleCellClick lucky0 (initState 0 0) 0 0 =
      (Outcome.pickup,
        { initState 0 0 with
            heldSpirit := HeldState.val (getSpiritAt lucky0 (initState 0 0) 0 0),
            cellMemory := mapSet (initState 0 0).cellMemory (cellKey 0 0) ⟨0⟩ }) :=
  ((click_state_machine lucky0 (initState 0 0) 0 0 (Or.inl rfl)).2
    (by with_unfolding_all decide)).1 ⟨by with_unfolding_all decide, rfl⟩

-- ---- C2: flyweight invariant over traces ------------------------

theorem click_cellMemory (lucky : ℤ → ℤ → ℚ) (s : GameState) (i j : ℤ) :
    (isMutating (handleCellClick lucky s i j).1 = false ∧
      ((handleCellClick lucky s i j).2).cellMemory = s.cellMemory) ∨
    (isMutating (handleCellClick lucky s i j).1 = true ∧
      ∃ v, ((handleCellClick lucky s i j).2).cellMemory =
        mapSet s.cellMemory (cellKey i j) v) := by
  unfold handleCellClick
  split_ifs <;>
    simp [performPickup, performMerge, performDrop, isMutating]

theorem hasKey_stepEv (lucky : ℤ → ℤ → ℚ) (s : GameState) (ev : Ev) (k : String) :
    hasKey (stepEv lucky s ev).cellMemory k = true ↔
      hasKey s.cellMemory k = true ∨ k ∈ keysSetBy lucky s ev := by
  cases ev with
  | move lat lng =>
    simp [stepEv, keysSetBy, handleMoveEvent]
  | click i j =>
    rcases click_cellMemory lucky s i j with ⟨hmut, hmem⟩ | ⟨hmut, v, hmem⟩
    · simp [stepEv, keysSetBy, hmut, hmem]
    · simp [stepEv, keysSetBy, hmut, hmem, hasKey_mapSet]

theorem runTrace_hasKey (lucky : ℤ → ℤ → ℚ) (evs : List Ev) (s : GameState) (k : String) :
    hasKey (runTrace lucky s evs).1.cellMemory k = true ↔
      hasKey s.cellMemory k = true ∨ k ∈ (runTrace lucky s evs).2 := by
  induction evs generalizing s with
  | nil => simp [runTrace]
  | cons e rest ih =>
    simp only [runTrace, List.mem_append]
    rw [ih (stepEv lucky s e), hasKey_stepEv]
    tauto

/-- C2 amended: in a session started fresh at any cell, a cell whose
key was never targeted by a set still resolves to its procedural
value, and an override key is present exactly when some set targeted
it; the original iff fails in the other direction, see the
counterexample. -/
theorem flyweight_invariant_amended (lucky : ℤ → ℤ → ℚ) (p q : ℤ)
    (evs : List Ev) (i j : ℤ) :
    (cellKey i j ∉ (runTrace lucky (initState p q) evs).2 →
      getSpiritAt lucky (runTrace lucky (initState p q) evs).1 i j =
        getSpiritValue lucky i j) ∧
    (hasKey (runTrace lucky (initState p q) evs).1.cellMemory (cellKey i j) = true ↔
      cellKey i j ∈ (runTrace lucky (initState p q) evs).2) := by
  have hbase : hasKey (initState p q).cellMemory (cellKey i j) = false := rfl
  have hiff := runTrace_hasKey lucky evs (initState p q) (cellKey i j)
  rw [hbase] at hiff
  simp only [Bool.false_eq_true, false_or] at hiff
  refine ⟨fun hnot => ?_, hiff⟩
  have hfalse : ¬ hasKey (runTrace lucky (initState p q) evs).1.cellMemory (cellKey i j) = true :=
    fun htrue => hnot (hiff.mp htrue)
  have hnone : mapGet (runTrace lucky (initState p q) evs).1.cellMemory (cellKey i j) = none := by
    unfold hasKey at hfalse
    exact Option.not_isSome_iff_eq_none.mp (by simpa using hfalse)
  unfold getSpiritAt
  rw [hnone]

/-- Witness for C2 amended: after the pickup/drop trace at the origin
cell, the untouched cell (1, 1) still resolves to its procedural
value. -/
theorem flyweight_invariant_amended_witness :
    getSpiritAt lucky0 (runTrace lucky0 (initState 0 0) cexEvs).1 1 1 =
      getSpiritValue lucky0 1 1 :=
  (flyweight_invariant_amended lucky0 0 0 cexEvs 1 1).1
    (by with_unfolding_all decide)

/-- Counterexample to C2 as stated: picking up the spirit at (0, 0)
and dropping it back leaves store.get(0,0) equal to the procedural
value even though two sets targeted that cell, so equality with the
procedural value does not imply the cell was never set. -/
theorem flyweight_iff_counterexample :
    ¬ (∀ (lucky : ℤ → ℤ → ℚ) (p q : ℤ) (evs : List Ev) (i j : ℤ),
        getSpiritAt lucky (runTrace lucky (initState p q) evs).1 i j =
            getSpiritValue lucky i j ↔
          cellKey i j ∉ (runTrace lucky (initState p q) evs).2) := by
  intro h
  have hmem : cellKey 0 0 ∈ (runTrace lucky0 (initState 0 0) cexEvs).2 := by
    with_unfolding_all decide
  have heq : getSpiritAt lucky0 (runTrace lucky0 (initState 0 0) cexEvs).1 0 0 =
      getSpiritValue lucky0 0 0 := by
    with_unfolding_all decide
  exact (h lucky0 0 0 cexEvs 0 0).mp heq hmem

-- ---- C9: picked-up cells stay emptied across movement ------------

theorem pickup_cellMemory (lucky : ℤ → ℤ → ℚ) (s : GameState) (i j : ℤ)
    (hp : (handleCellClick lucky s i j).1 = Outcome.pickup) :
    ((handleCellClick lucky s i j).2).cellMemory =
      mapSet s.cellMemory (cellKey i j) ⟨0⟩ := by
  unfold handleCellClick at hp ⊢
  split_ifs at hp ⊢ with h1 h2 h3 h4 h5
  simp [performPickup]

theorem runMoves_cellMemory (s : GameState) (moves : List (ℚ × ℚ)) :
    (runMoves s moves).cellMemory = s.cellMemory := by
  induction moves generalizing s with
  | nil => rfl
  | cons m rest ih =>
    simp [runMoves, List.foldl_cons] at ih ⊢
    rw [ih (handleMoveEvent s m.1 m.2)]
    rfl

/-- C9: once a pickup happens at (i, j), any subsequent sequence of
movement events (with no further activation of that cell) leaves the
store entry unchanged: the cell still resolves to 0 rather than
regenerating its procedural value. -/
theorem farming_exploit_closed (lucky : ℤ → ℤ → ℚ) (s : GameState) (i j : ℤ)
    (moves : List (ℚ × ℚ))
    (hp : (handleCellClick lucky s i j).1 = Outcome.pickup) :
    getSpiritAt lucky (runMoves ((handleCellClick lucky s i j).2) moves) i j = 0 := by
  unfold getSpiritAt
  rw [runMoves_cellMemory, pickup_cellMemory lucky s i j hp, mapGet_mapSet]
  simp

/-- Witness for C9: pick up the spirit at the origin cell, walk away
and back; the cell still reads 0. -/
theorem farming_exploit_closed_witness :
    getSpiritAt lucky0
      (runMoves ((handleCellClick lucky0 (initState 0 0) 0 0).2) exMoves) 0 0 = 0 :=
  farming_exploit_closed lucky0 (initState 0 0) 0 0 exMoves
    (by with_unfolding_all decide)

-- ---- C3: serialize/deserialize round trip -----------------------

theorem hasKey_cons (p : String × CellMemento) (rest : List (String × CellMemento))
    (k : String) :
    hasKey (p :: rest) k = true ↔ p.1 = k ∨ hasKey rest k = true := by
  by_cases h : p.1 = k <;> simp [hasKey, mapGet, h]

theorem mapSet_of_fresh (m : List (String × CellMemento)) (k : String) (v : CellMemento)
    (h : hasKey m k = false) :
    mapSet m k v = m ++ [(k, v)] := by
  induction m with
  | nil => rfl
  | cons p rest ih =>
    have hne : ¬ p.1 = k := by
      intro he
      have : hasKey (p :: rest) k = true := (hasKey_cons p rest k).mpr (Or.inl he)
      rw [h] at this
      exact Bool.noConfusion this
    have hrest : hasKey rest k = false := by
      cases hr : hasKey rest k with
      | false => rfl
      | true =>
        have : hasKey (p :: rest) k = true := (hasKey_cons p rest k).mpr (Or.inr hr)
        rw [h] at this
        exact Bool.noConfusion this
    simp [mapSet, hne, ih hrest]

theorem loadEntries_encode (m : List (String × CellMemento)) :
    ∀ acc : List (String × CellMemento),
      (∀ k, k ∈ m.map Prod.fst → hasKey acc k = false) →
      (m.map Prod.fst).Nodup →
      loadEntries (m.map encodeEntry) acc = (true, acc ++ m) := by
  induction m with
  | nil =>
    intro acc _ _
    simp [loadEntries]
  | cons p rest ih =>
    intro acc hdisj hnd
    have hk : hasKey acc p.1 = false := hdisj p.1 (by simp)
    have hstep : loadEntries ((p :: rest).map encodeEntry) acc =
        loadEntries (rest.map encodeEntry) (mapSet acc p.1 p.2) := by
      simp [encodeEntry, loadEntries, decodeMemento, jLookup, jFind]
    rw [hstep, mapSet_of_fresh acc p.1 p.2 hk]
    have hnd' : (rest.map Prod.fst).Nodup := (List.nodup_cons.mp (by simpa using hnd)).2
    have hhead : p.1 ∉ rest.map Prod.fst := (List.nodup_cons.mp (by simpa using hnd)).1
    have hdisj' : ∀ k, k ∈ rest.map Prod.fst → hasKey (acc ++ [(p.1, p.2)]) k = false := by
      intro k hkmem
      rw [← mapSet_of_fresh acc p.1 p.2 hk]
      cases hres : hasKey (mapSet acc p.1 p.2) k with
      | false => rfl
      | true =>
        rcases (hasKey_mapSet acc p.1 k p.2).mp hres with hacc | hkey
        · rw [hdisj k (by simp [hkmem])] at hacc
          exact Bool.noConfusion hacc
        · exact absurd (hkey ▸ hkmem) hhead
    rw [ih (acc ++ [(p.1, p.2)]) hdisj' hnd']
    simp

/-- C3: deserializing the serialized form of any state whose store has
no duplicate keys (true of every reachable store, which is built only
through Map.set) restores the position, held spirit, overrides and
movement mode exactly, regardless of the in-memory state the load runs
against. -/
theorem save_load_roundtrip (s s0 : GameState)
    (hnd : (s.cellMemory.map Prod.fst).Nodup) :
    loadGame (some (some (serialize s))) s0 = (true, s) := by
  obtain ⟨⟨plat, plng⟩, held, mem, mode⟩ := s
  have hload := loadEntries_encode mem []
    (fun k _ => rfl) (by simpa using hnd)
  cases held <;> cases mode <;>
    simp [loadGame, deserializeInto, serialize, encodeHeld, encodeMode,
      readPlayer, jLookup, jFind, decodeHeld, kPlayer, kLat, kLng,
      kHeldSpirit, kCellMemory, kMovementMode, kValue, sGeo, sButton,
      hload]

/-- Witness for C3 at a concrete mid-game state. -/
theorem save_load_roundtrip_witness :
    loadGame (some (some (serialize exSaveState))) freshStart = (true, exSaveState) :=
  save_load_roundtrip exSaveState freshStart (by with_unfolding_all decide)

-- ---- C4: victory sequence ---------------------------------------

/-- Counterexample to C4 as stated: in a concrete mid-game session,
running the victory trigger and then the scheduled reset leaves the
persisted save slot untouched (not cleared) and leaves the player
where they were (no starting position is re-acquired); moreover cell
activation is still processed between the trigger and the reset (the
claimed input freeze does not cover clicks), as the pickup shows. -/
theorem victory_reset_counterexample :
    (resetGame (triggerVictory exSession)).saveSlot = some (Json.str exOldSave) ∧
    (resetGame (triggerVictory exSession)).saveSlot ≠ none ∧
    (resetGame (triggerVictory exSession)).gs.playerPos = exSession.gs.playerPos ∧
    (handleCellClick lucky0 (triggerVictory exSession).gs 0 0).1 = Outcome.pickup := by
  refine ⟨rfl, ?_, rfl, ?_⟩
  · exact fun h => Option.noConfusion h
  · with_unfolding_all decide

/-- C4 amended: a merge whose doubled value reaches VICTORY_VALUE
triggers the victory sequence exactly once before the save, and a
sub-threshold merge does not trigger it; the trigger shows the win
overlay, disables only map dragging, and schedules the message change
after WIN_MESSAGE_TIME and resetGame after RESET_DELAY; the reset
clears the store and the held spirit, hides the overlay and re-enables
dragging, but leaves the persisted save slot and the player position
unchanged. -/
theorem victory_reset_amended (t : SessionState) (i j : ℤ) (v : ℚ) :
    (VICTORY_VALUE ≤ v * 2 →
      performMergeSession t i j v =
        saveSession (triggerVictory { t with gs := performMerge t.gs i j v })) ∧
    (v * 2 < VICTORY_VALUE →
      performMergeSession t i j v =
        saveSession { t with gs := performMerge t.gs i j v }) ∧
    (triggerVictory t).overlayVisible = true ∧
    (triggerVictory t).mapDraggingEnabled = false ∧
    (triggerVictory t).timers =
      t.timers ++ [(WIN_MESSAGE_TIME, TimerAction.changeWinMessage),
                   (RESET_DELAY, TimerAction.doReset)] ∧
    (resetGame t).gs.heldSpirit = HeldState.null ∧
    (resetGame t).gs.cellMemory = [] ∧
    (resetGame t).overlayVisible = false ∧
    (resetGame t).mapDraggingEnabled = true ∧
    (resetGame t).saveSlot = t.saveSlot ∧
    (resetGame t).gs.playerPos = t.gs.playerPos := by
  refine ⟨fun hwin => ?_, fun hlose => ?_, rfl, rfl, rfl, rfl, rfl, rfl, rfl, rfl, rfl⟩
  · simp only [performMergeSession]
    rw [if_pos hwin]
  · simp only [performMergeSession]
    rw [if_neg (not_le.mpr hlose)]

/-- Witness for C4 amended: merging two 16-spirits reaches the
threshold of 32 and routes through the victory trigger. -/
theorem victory_reset_amended_witness :
    performMergeSession exSession 0 0 16 =
      saveSession (triggerVictory { exSession with gs := performMerge exSession.gs 0 0 16 }) :=
  (victory_reset_amended exSession 0 0 16).1 (by norm_num [VICTORY_VALUE])

-- ---- C5: partial adoption of a malformed save -------------------

/-- C5 is right and the code is wrong: loading a record with a valid
player and heldSpirit but no cellMemory field fails (the for-of over
undefined throws) only after playerPos and heldSpirit have already
been assigned, so the state after the failed load is not the state of
a fresh session: the startup path only restores playerPos, and the
adopted heldSpirit of 7 survives into the session. -/
theorem load_partial_adoption_bug :
    (loadGame (some (some badSave)) freshStart).1 = false ∧
    (loadGame (some (some badSave)) freshStart).2.heldSpirit = HeldState.val 7 ∧
    (loadGame (some (some badSave)) freshStart).2.playerPos = (1, 2) ∧
    (startupState (some (some badSave))).heldSpirit = HeldState.val 7 ∧
    (startupState none).heldSpirit = HeldState.null ∧
    startupState (some (some badSave)) ≠ startupState none := by
  refine ⟨rfl, rfl, rfl, rfl, rfl, ?_⟩
  intro h
  have h2 := congrArg GameState.heldSpirit h
  rw [show (startupState (some (some badSave))).heldSpirit = HeldState.val 7 from rfl] at h2
  rw [show (startupState none).heldSpirit = HeldState.null from rfl] at h2
  exact HeldState.noConfusion h2

-- ---- C6: shape of the persisted record --------------------------

/-- Counterexample to C6 as stated: the serialized record of a
concrete state carries no field named overrides; the override entries
are stored under the key cellMemory instead. -/
theorem save_shape_counterexample :
    kOverrides ∉ jKeys (serialize exSaveState) ∧
    kCellMemory ∈ jKeys (serialize exSaveState) := by
  with_unfolding_all decide

theorem all_encodeEntry (l : List (String × CellMemento)) :
    (l.map encodeEntry).all isEntryShape = true := by
  induction l with
  | nil => rfl
  | cons p rest ih =>
    simp [encodeEntry, isEntryShape] at ih ⊢
    exact ih

/-- C6 amended: for every state whose held spirit is a number or null
(every state gameplay produces), the serialized durable record has
exactly the shape with keys player (an object with numeric lat and
lng), heldSpirit (number or null), cellMemory (an array of
[string, object-with-numeric-value] pairs) and movementMode (the
string geo or button); the override entries live under the field named
cellMemory, not overrides. -/
theorem save_shape_amended (s : GameState) (h : s.heldSpirit ≠ HeldState.undef) :
    isSaveShape (serialize s) = true ∧ kOverrides ∉ jKeys (serialize s) := by
  obtain ⟨⟨plat, plng⟩, held, mem, mode⟩ := s
  constructor
  · cases held with
    | undef => exact absurd rfl h
    | null =>
      cases mode <;>
        simp [serialize, encodeHeld, encodeMode, isSaveShape, isHeldJson,
          all_encodeEntry, kPlayer, kLat, kLng, kHeldSpirit, kCellMemory,
          kMovementMode, sGeo, sButton]
    | val q =>
      cases mode <;>
        simp [serialize, encodeHeld, encodeMode, isSaveShape, isHeldJson,
          all_encodeEntry, kPlayer, kLat, kLng, kHeldSpirit, kCellMemory,
          kMovementMode, sGeo, sButton]
  · cases held <;>
      simp [serialize, encodeHeld, jKeys, kPlayer, kHeldSpirit, kCellMemory,
        kMovementMode, kOverrides]

/-- Witness for C6 amended at a concrete state. -/
theorem save_shape_amended_witness :
    isSaveShape (serialize exSaveState) = true ∧
      kOverrides ∉ jKeys (serialize exSaveState) :=
  save_shape_amended exSaveState (fun h => HeldState.noConfusion h)

end DreamGrid
